import Mathlib

/-!
Verification of `routeml` (src/routeml/utils.py) against its natural-language
specification.  Python functions are shallowly embedded as Lean functions:
Python lists become Lean `List`s, raised exceptions become `Except PyErr`,
and `dict`s become association lists.  Randomness is modelled by an explicit
oracle of drawn values, and in-place mutation by an explicit store-passing
translation.  All definitions are translated from the source; definitions
whose doc comment says so follow the spec's wording, for refinement claims.
-/

/-- Exception classes that the translated Python code can raise. -/
inductive PyErr where
  | valueError
  | typeError
  | indexError
  | assertionError
  | keyError
deriving DecidableEq, Repr

deriving instance DecidableEq for Except

/-! ## Route/Solution codec (utils.py lines 7-25 and 52-70) -/

/-- Loop body of `routes_to_solution` (utils.py lines 17-24).  The flag
records whether the current route is the first one (`i == 0` in the Python
`enumerate`); later routes have their leading depot stripped.  `route[0]` on
an empty list raises `IndexError` in Python before either `assert` runs;
a failing `assert` raises `AssertionError`. -/
def r2sGo : Bool → List (List Nat) → Except PyErr (List Nat)
  | _, [] => .ok []
  | first, r :: rs =>
    match r.head? with
    | none => .error .indexError
    | some a =>
      if a = 0 then
        if r.getLast? = some 0 then
          match r2sGo false rs with
          | .ok s => .ok ((if first then r else r.tail) ++ s)
          | .error e => .error e
        else .error .assertionError
      else .error .assertionError

/-- `routes_to_solution(routes)` from utils.py lines 7-25. -/
def routes_to_solution (routes : List (List Nat)) : Except PyErr (List Nat) :=
  r2sGo true routes

/-- Loop body of `solution_to_routes` (utils.py lines 62-70), with the
accumulating `route` made explicit.  On a depot node with a non-empty
accumulated route the route is closed with an extra depot, emitted, and a
fresh route is opened containing that depot. -/
def s2rGo : List Nat → List Nat → List (List Nat)
  | _, [] => []
  | route, n :: rest =>
    if n = 0 ∧ route ≠ [] then (route ++ [0]) :: s2rGo [0] rest
    else s2rGo (route ++ [n]) rest

/-- `solution_to_routes(solution)` from utils.py lines 52-70.  The final
accumulated route is never emitted (the Python loop only appends to
`routes` when it sees a depot). -/
def solution_to_routes (solution : List Nat) : List (List Nat) :=
  s2rGo [] solution

/-- Validity of a single route exactly as claim C1 words it: nonempty,
first and last element equal to the depot index 0, and the depot appearing
nowhere else inside the route (i.e. not strictly between first and last). -/
def validRoute (r : List Nat) : Prop :=
  r ≠ [] ∧ r.head? = some 0 ∧ r.getLast? = some 0 ∧ 0 ∉ r.tail.dropLast

instance (r : List Nat) : Decidable (validRoute r) := by
  unfold validRoute; infer_instance


/-! ## `is_feasible` (utils.py lines 276-301) -/

/-- Python `set(a) == set(b)` on lists of node ids: each is contained in the
other. -/
def pySetEq (a b : List Nat) : Bool :=
  a.all (fun x => b.contains x) && b.all (fun x => a.contains x)

/-- Python `demand[node]` on a dict, modelled as an association list;
a missing key raises `KeyError`. -/
def demandLookup (dem : List (Nat × Int)) (n : Nat) : Except PyErr Int :=
  match dem.find? (fun p => p.1 == n) with
  | some p => .ok p.2
  | none => .error .keyError

/-- `sum(demand[node] for node in route)` (utils.py line 297): the first
missing node aborts the sum with `KeyError`. -/
def routeDemandSum (dem : List (Nat × Int)) : List Nat → Except PyErr Int
  | [] => .ok 0
  | n :: rest =>
    match demandLookup dem n with
    | .error e => .error e
    | .ok d =>
      match routeDemandSum dem rest with
      | .error e => .error e
      | .ok s => .ok (d + s)

/-- Capacity loop of `is_feasible` (utils.py lines 296-299): the first route
whose total demand exceeds `capacity` makes the result `False`. -/
def isFeasibleLoop (dem : List (Nat × Int)) (cap : Int) :
    List (List Nat) → Except PyErr Bool
  | [] => .ok true
  | r :: rs =>
    match routeDemandSum dem r with
    | .error e => .error e
    | .ok td => if td > cap then .ok false else isFeasibleLoop dem cap rs

/-- `is_feasible(routes, demand, capacity)` from utils.py lines 276-301:
flatten via `routes_to_solution` (which asserts depot-bounded routes), then
compare `set(solution)` with `set(demand.keys())`, then check per-route
demand against capacity. -/
def is_feasible (routes : List (List Nat)) (dem : List (Nat × Int))
    (cap : Int) : Except PyErr Bool :=
  match routes_to_solution routes with
  | .error e => .error e
  | .ok solution =>
    if pySetEq solution (dem.map Prod.fst) then isFeasibleLoop dem cap routes
    else .ok false


/-! ## `get_cvrp_cost` dispatch (utils.py lines 223-253) and
`add_depot_to_routes` (utils.py lines 27-50)

The first Python argument of both functions is dynamically typed; its
possible shapes are modelled by `PyArg`: either an arbitrary list whose
items are ints or lists, or some non-list value. -/

/-- An element of a Python list argument: an int (node index) or a list of
node indices. -/
inductive PyItem where
  | pyInt (n : Nat)
  | pyList (l : List Nat)
deriving DecidableEq, Repr

/-- A dynamically typed Python argument: a list of `PyItem`s, or any
non-list value. -/
inductive PyArg where
  | pyListArg (items : List PyItem)
  | pyOther
deriving DecidableEq, Repr

/-- `routes_to_solution` applied to a heterogeneous Python list, as called
from `get_cvrp_cost`'s nested branch (utils.py line 236): an int element
makes `route[0]` raise `TypeError` at its turn in the loop. -/
def r2sPyGo : Bool → List PyItem → Except PyErr (List Nat)
  | _, [] => .ok []
  | _, .pyInt _ :: _ => .error .typeError
  | first, .pyList r :: rs =>
    match r.head? with
    | none => .error .indexError
    | some a =>
      if a = 0 then
        if r.getLast? = some 0 then
          match r2sPyGo false rs with
          | .ok s => .ok ((if first then r else r.tail) ++ s)
          | .error e => .error e
        else .error .assertionError
      else .error .assertionError

/-- Flat-branch extraction of `get_cvrp_cost` (utils.py line 238): the list
itself is the solution; a list element would later make numpy/`math.dist`
fail with `TypeError` when used as a node index, modelled at extraction. -/
def itemsToNodes : List PyItem → Except PyErr (List Nat)
  | [] => .ok []
  | .pyInt n :: rest =>
    match itemsToNodes rest with
    | .error e => .error e
    | .ok ns => .ok (n :: ns)
  | .pyList _ :: _ => .error .typeError

/-- `coordinates[node]` on the coordinate array: out-of-range raises
`IndexError`. -/
def coordAt (coords : List (ℚ × ℚ)) (n : Nat) : Except PyErr (ℚ × ℚ) :=
  match coords.get? n with
  | some c => .ok c
  | none => .error .indexError

/-- Cost loop of `get_cvrp_cost` (utils.py lines 242-251), summing
`dist coord1 coord2` over consecutive solution nodes.  `math.dist` computes
a floating-point Euclidean distance, which has no exact Lean counterpart;
the distance function (already including the optional `uchoa` rounding) is
therefore passed as a parameter — the claims about `get_cvrp_cost` concern
only its dispatch and error behaviour, which do not depend on it. -/
def costLoop (dist : (ℚ × ℚ) → (ℚ × ℚ) → ℚ) (coords : List (ℚ × ℚ)) :
    List Nat → Except PyErr ℚ
  | [] => .ok 0
  | [_] => .ok 0
  | a :: b :: rest =>
    match coordAt coords a, coordAt coords b with
    | .ok ca, .ok cb =>
      match costLoop dist coords (b :: rest) with
      | .error e => .error e
      | .ok s => .ok (dist ca cb + s)
    | .error e, _ => .error e
    | _, .error e => .error e

/-- `get_cvrp_cost(routes_or_solution, coordinates)` from utils.py lines
223-253.  Dispatch (lines 235-240): a non-list argument raises `ValueError`;
`isinstance(routes_or_solution[0], list)` on an empty list raises
`IndexError`; a first element that is a list selects the nested branch,
otherwise the flat branch. -/
def get_cvrp_cost (dist : (ℚ × ℚ) → (ℚ × ℚ) → ℚ) (arg : PyArg)
    (coords : List (ℚ × ℚ)) : Except PyErr ℚ :=
  match arg with
  | .pyOther => .error .valueError
  | .pyListArg [] => .error .indexError
  | .pyListArg (first :: rest) =>
    match first with
    | .pyList _ =>
      match r2sPyGo true (first :: rest) with
      | .error e => .error e
      | .ok solution => costLoop dist coords solution
    | .pyInt _ =>
      match itemsToNodes (first :: rest) with
      | .error e => .error e
      | .ok solution => costLoop dist coords solution

/-- Element loop of `add_depot_to_routes` (utils.py lines 43-48): a non-list
element raises `ValueError("Routes must be a nested list")`; a list element
`route` is mutated into `[0] ++ route ++ [0]`. -/
def addDepotGo : List PyItem → Except PyErr (List (List Nat))
  | [] => .ok []
  | .pyInt _ :: _ => .error .valueError
  | .pyList r :: rest =>
    match addDepotGo rest with
    | .error e => .error e
    | .ok rs => .ok ((0 :: r ++ [0]) :: rs)

/-- `add_depot_to_routes(routes)` from utils.py lines 27-50: a non-list
argument raises `ValueError("Routes must be a list")`; otherwise each
element is processed by the loop and the (mutated) list is returned. -/
def add_depot_to_routes : PyArg → Except PyErr (List (List Nat))
  | .pyOther => .error .valueError
  | .pyListArg items => addDepotGo items


/-! ## `get_random_solution` (utils.py lines 385-409)

`random.randint(a, b)` draws are modelled by an oracle: a list of natural
numbers consumed in order, each mapped into the inclusive range `[a, b]` by
`a + v % (b - a + 1)`.  Quantifying over all oracles quantifies over all
sequences of random choices.  An exhausted oracle (the Python code would
keep retrying) yields `none`. -/

/-- Python `lst.insert(index, v)` (clamping at the end like Python). -/
def pyInsert : Nat → Nat → List Nat → List Nat
  | 0, v, l => v :: l
  | _ + 1, v, [] => [v]
  | n + 1, v, x :: xs => x :: pyInsert n v xs

/-- The retry loop of utils.py lines 404-406: draw
`index = random.randint(1, len(lst)-1)` until neither `lst[index]` nor
`lst[index-1]` is a depot; returns the accepted index and the unconsumed
oracle.  Out-of-range reads (which cannot occur, since the drawn index is
in `[1, len-1]`) are given default 0 and hence rejected. -/
def pickIndex (l : List Nat) : List Nat → Option (Nat × List Nat)
  | [] => none
  | v :: vs =>
    let idx := 1 + v % (l.length - 1)
    if l.getD idx 0 == 0 || l.getD (idx - 1) 0 == 0 then pickIndex l vs
    else some (idx, vs)

/-- The `for _ in range(num_zeros)` loop of utils.py lines 403-407: each
iteration picks a valid index and inserts a depot there. -/
def insertZerosLoop : Nat → List Nat → List Nat → Option (List Nat)
  | 0, _, l => some l
  | k + 1, vs, l =>
    match pickIndex l vs with
    | none => none
    | some (idx, rest) => insertZerosLoop k rest (pyInsert idx 0 l)

/-- `get_random_solution(N)` from utils.py lines 385-409: start from
`list(range(N+1)) + [0]`, draw `num_zeros = random.randint(1, 5)`, and
insert that many depots at valid random positions. -/
def get_random_solution (N : Nat) : List Nat → Option (List Nat)
  | [] => none
  | v :: vs => insertZerosLoop (1 + v % 5) vs (List.range (N + 1) ++ [0])

/-- No two adjacent depot occurrences in a solution list; equivalently (for
a list whose runs are delimited by zeros) no empty route: every maximal run
between consecutive zeros contains at least one customer node. -/
def noAdjZeros : List Nat → Bool
  | [] => true
  | 0 :: 0 :: _ => false
  | _ :: rest => noAdjZeros rest


/-! ## Text helpers shared by both parsers

Text is modelled as `List Char`.  Each `re` pattern used by utils.py is
translated into a dedicated matcher; for every such pattern the greedy
quantifiers are followed by characters disjoint from the quantified class
(or the required backtracking is worked out explicitly in the matcher), so
the matchers compute exactly the Python regex semantics on these patterns. -/

/-- Python `str` whitespace as used by `\s`, `strip()` and `split()`
(ASCII range). -/
def isPyWs (c : Char) : Bool :=
  c = ' ' || c = '\t' || c = '\n' || c = '\r' || c = '\x0b' || c = '\x0c'

/-- Decimal digit, the `\d` class (ASCII). -/
def isDigitCh (c : Char) : Bool :=
  '0' ≤ c && c ≤ '9'

/-- Python `s.strip()`. -/
def pyStrip (l : List Char) : List Char :=
  ((l.dropWhile isPyWs).reverse.dropWhile isPyWs).reverse

/-- Worker for `splitLines`, accumulating the current line reversed. -/
def splitLinesGo (cur : List Char) : List Char → List (List Char)
  | [] => [cur.reverse]
  | c :: cs =>
    if c = '\n' then cur.reverse :: splitLinesGo [] cs
    else splitLinesGo (c :: cur) cs

/-- Python `s.split('\n')` (keeps empty segments; `''.split('\n') == ['']`). -/
def splitLines (l : List Char) : List (List Char) :=
  splitLinesGo [] l

/-- Worker for `pySplit`, accumulating the current token reversed. -/
def pySplitGo (cur : List Char) : List Char → List (List Char)
  | [] => if cur = [] then [] else [cur.reverse]
  | c :: cs =>
    if isPyWs c then
      if cur = [] then pySplitGo [] cs else cur.reverse :: pySplitGo [] cs
    else pySplitGo (c :: cur) cs

/-- Python `s.split()` with no argument: split on whitespace runs, dropping
empty tokens. -/
def pySplit (l : List Char) : List (List Char) :=
  pySplitGo [] l

/-- Match a literal string at the head of the input, returning the rest. -/
def dropLit : List Char → List Char → Option (List Char)
  | [], l => some l
  | _ :: _, [] => none
  | p :: ps, c :: cs => if p = c then dropLit ps cs else none

/-- `re.search` position scan: try the anchored matcher at every suffix,
left to right, returning the first hit. -/
def searchFrom (m : List Char → Option α) : List Char → Option α
  | [] => m []
  | c :: cs =>
    match m (c :: cs) with
    | some r => some r
    | none => searchFrom m cs

/-- Digits to a natural number, as Python `int` on a digit string. -/
def digitsToNat (ds : List Char) : Nat :=
  ds.foldl (fun a c => a * 10 + (c.toNat - 48)) 0

/-- Python `int(token)` on a `split()` token: optional sign then a nonempty
digit run; anything else raises `ValueError`.  (Python also tolerates
surrounding whitespace and inner underscores; `split()` tokens contain no
whitespace and the claims involve none of the underscore forms.) -/
def pyIntParse (tok : List Char) : Except PyErr Int :=
  match tok with
  | '-' :: ds =>
    if ds ≠ [] ∧ ds.all isDigitCh then .ok (-(digitsToNat ds : Int))
    else .error .valueError
  | '+' :: ds =>
    if ds ≠ [] ∧ ds.all isDigitCh then .ok (digitsToNat ds : Int)
    else .error .valueError
  | ds =>
    if ds ≠ [] ∧ ds.all isDigitCh then .ok (digitsToNat ds : Int)
    else .error .valueError

/-- `int()` on every token of a route line (utils.py line 214). -/
def pyMapInt : List (List Char) → Except PyErr (List Int)
  | [] => .ok []
  | t :: ts =>
    match pyIntParse t with
    | .error e => .error e
    | .ok n =>
      match pyMapInt ts with
      | .error e => .error e
      | .ok ns => .ok (n :: ns)

/-! ## `parse_vrplib_solution` (utils.py lines 186-221) -/

/-- `re.match(r'Route #(\d+): (.+)', line)`: anchored at the start of the
line; returns the two captured groups (route number digits, rest of line).
`.` cannot match a newline and lines contain none, so `(.+)` greedily takes
the nonempty remainder of the line. -/
def routeMatch (l : List Char) : Option (List Char × List Char) :=
  match dropLit ("Route #".toList) l with
  | none => none
  | some l1 =>
    let ds := l1.takeWhile isDigitCh
    if ds = [] then none
    else
      match dropLit (": ".toList) (l1.dropWhile isDigitCh) with
      | none => none
      | some rest => if rest = [] then none else some (ds, rest)

/-- `re.match(r'Cost ([\d.]+)', line)`: anchored at the start of the line,
returning the captured token (a maximal nonempty run of digits and dots;
trailing characters after the token are allowed by `re.match`). -/
def costMatch (l : List Char) : Option (List Char) :=
  match dropLit ("Cost ".toList) l with
  | none => none
  | some l1 =>
    let tok := l1.takeWhile (fun c => isDigitCh c || c = '.')
    if tok = [] then none else some tok

/-- A token from `[\d.]+` that Python `float()` accepts: at least one digit
and at most one dot (`float('1.2.3')` and `float('.')` raise `ValueError`). -/
def validFloatTok (tok : List Char) : Bool :=
  tok.any isDigitCh && tok.countP (fun c => c = '.') ≤ 1

/-- Line loop of `parse_vrplib_solution` (utils.py lines 210-219): a
route-matching line appends its parsed nodes, a cost-matching line
overwrites the cost with its token (so the last such line wins); the
captured route number is bound but never used. -/
def parseSolLines : List (List Char) → List (List Int) → Option (List Char) →
    Except PyErr (List (List Int) × Option (List Char))
  | [], acc, c => .ok (acc, c)
  | l :: ls, acc, c =>
    match routeMatch l with
    | some (_, rest) =>
      match pyMapInt (pySplit rest) with
      | .error e => .error e
      | .ok nodes =>
        match costMatch l with
        | some tok =>
          if validFloatTok tok then parseSolLines ls (acc ++ [nodes]) (some tok)
          else .error .valueError
        | none => parseSolLines ls (acc ++ [nodes]) c
    | none =>
      match costMatch l with
      | some tok =>
        if validFloatTok tok then parseSolLines ls acc (some tok)
        else .error .valueError
      | none => parseSolLines ls acc c

/-- `parse_vrplib_solution(source)` from utils.py lines 186-221, applied to
the already-loaded text: `solution_text.strip().split('\n')` then the line
loop.  The cost is kept as the matched token (Python converts it with
`float`, whose binary rounding has no exact Lean counterpart; which line's
token is returned is independent of that conversion). -/
def parse_vrplib_solution (text : List Char) :
    Except PyErr (List (List Int) × Option (List Char)) :=
  parseSolLines (splitLines (pyStrip text)) [] none


/-! ## `parse_vrplib_file` (utils.py lines 105-184)

Only the fields that the claims touch are modelled (`name`, `dimension`,
`node_coords`, `demand`, `depot_ids`); the remaining extractions
(`comment`, `type`, `edge_weight_type`, `capacity`) are independent
full-text regex searches that do not interact with these.  Decimal numeric
literals are represented exactly as rationals (Python stores them as
binary floats; the scenario values are exactly representable). -/

/-- `re.search(r'NAME\s*:\s*(\S+)', content)` anchored at one position:
literal `NAME`, whitespace, `:`, whitespace, then a nonempty non-whitespace
token.  (`\s*` is greedy and `:` is not whitespace, so no backtracking.) -/
def matchNameAt (l : List Char) : Option (List Char) :=
  match dropLit ("NAME".toList) l with
  | none => none
  | some l1 =>
    match dropLit [':'] (l1.dropWhile isPyWs) with
    | none => none
    | some l2 =>
      let tok := (l2.dropWhile isPyWs).takeWhile (fun c => !isPyWs c)
      if tok = [] then none else some tok

/-- `re.search(r'DIMENSION\s*:\s*(\d+)', content)` anchored at one
position. -/
def matchDimAt (l : List Char) : Option Nat :=
  match dropLit ("DIMENSION".toList) l with
  | none => none
  | some l1 =>
    match dropLit [':'] (l1.dropWhile isPyWs) with
    | none => none
    | some l2 =>
      let ds := (l2.dropWhile isPyWs).takeWhile isDigitCh
      if ds = [] then none else some (digitsToNat ds)

/-- Text before the first occurrence of the literal `pat`, scanning from the
left (`acc` holds the scanned characters reversed); `none` when `pat` does
not occur. -/
def upToGo (pat acc : List Char) : List Char → Option (List Char)
  | [] => if (dropLit pat []).isSome then some acc.reverse else none
  | c :: cs =>
    if (dropLit pat (c :: cs)).isSome then some acc.reverse
    else upToGo pat (c :: acc) cs

/-- The section regexes `START\s*(.+?)\s*END` with `re.DOTALL`, composed
with the `.strip()` the source applies to the captured group: the text
strictly between the first occurrence of `START` and the next occurrence of
`END`, stripped.  The lazy `(.+?)` needs at least one character between the
markers, otherwise the search fails and the field is simply absent. -/
def sectionBetween (startPat endPat content : List Char) : Option (List Char) :=
  match searchFrom (dropLit startPat) content with
  | none => none
  | some after =>
    match upToGo endPat [] after with
    | none => none
    | some between => if between = [] then none else some (pyStrip between)

/-- A decimal literal, exactly: the value `mant / 10 ^ exp`.  Python's
`float()` rounds it to binary; the claims compare only literals that are
exactly representable either way, so the decimal form is kept. -/
structure DecNum where
  mant : Int
  exp : Nat
deriving DecidableEq, Repr

/-- The number pattern `[-+]?\d*\.?\d+` anchored at one position, with its
backtracking worked out: after an optional sign and a greedy digit run `D`,
a dot is consumed only when followed by at least one digit (`D.E`);
otherwise the match is `D` alone (requiring `D` nonempty), obtained by the
engine backtracking over `\.?` and the last repetition of `\d*`.  Returns
the value as an exact decimal together with the rest of the input. -/
def matchNumAt (l : List Char) : Option (DecNum × List Char) :=
  let signAndRest : Int × List Char :=
    match l with
    | '-' :: rest => (-1, rest)
    | '+' :: rest => (1, rest)
    | _ => (1, l)
  let sgn := signAndRest.1
  let l1 := signAndRest.2
  let ds := l1.takeWhile isDigitCh
  let l2 := l1.dropWhile isDigitCh
  match l2 with
  | '.' :: l3 =>
    let es := l3.takeWhile isDigitCh
    if es ≠ [] then
      some (⟨sgn * ((digitsToNat ds : Int) * (10 : Int) ^ es.length +
        (digitsToNat es : Int)), es.length⟩, l3.dropWhile isDigitCh)
    else if ds ≠ [] then some (⟨sgn * (digitsToNat ds : Int), 0⟩, l2)
    else none
  | _ => if ds ≠ [] then some (⟨sgn * (digitsToNat ds : Int), 0⟩, l2) else none

/-- `\s+` anchored at one position: at least one whitespace character. -/
def dropWs1 (l : List Char) : Option (List Char) :=
  match l with
  | c :: cs => if isPyWs c then some (cs.dropWhile isPyWs) else none
  | [] => none

/-- The coordinate-line pattern `(\d+)\s+([-+]?\d*\.?\d+)\s+([-+]?\d*\.?\d+)`
anchored at one position: node id, x, y.  The id group is captured but
discarded by the source (utils.py lines 163-164), so only `(x, y)` is
returned.  (Each greedy run is followed by a character class disjoint from
it, so no cross-group backtracking arises.) -/
def matchCoordAt (l : List Char) : Option (DecNum × DecNum) :=
  let ds := l.takeWhile isDigitCh
  if ds = [] then none
  else
    match dropWs1 (l.dropWhile isDigitCh) with
    | none => none
    | some l1 =>
      match matchNumAt l1 with
      | none => none
      | some (x, l2) =>
        match dropWs1 l2 with
        | none => none
        | some l3 =>
          match matchNumAt l3 with
          | none => none
          | some (y, _) => some (x, y)

/-- `re.findall(...)[0]` on one coordinate line: the first match anywhere in
the line, and `IndexError` when the line has no match. -/
def parseCoordLine (line : List Char) : Except PyErr (DecNum × DecNum) :=
  match searchFrom matchCoordAt line with
  | some xy => .ok xy
  | none => .error .indexError

/-- The coordinate lines loop (utils.py lines 162-164). -/
def parseCoordLines : List (List Char) → Except PyErr (List (DecNum × DecNum))
  | [] => .ok []
  | line :: ls =>
    match parseCoordLine line with
    | .error e => .error e
    | .ok xy =>
      match parseCoordLines ls with
      | .error e => .error e
      | .ok rest => .ok (xy :: rest)

/-- The demand-line pattern `(\d+)\s+(-?\d+)` anchored at one position,
returning the demand group (the id is discarded by the source). -/
def matchDemandAt (l : List Char) : Option Int :=
  let ds := l.takeWhile isDigitCh
  if ds = [] then none
  else
    match dropWs1 (l.dropWhile isDigitCh) with
    | none => none
    | some l1 =>
      match l1 with
      | '-' :: l2 =>
        let es := l2.takeWhile isDigitCh
        if es = [] then none else some (-(digitsToNat es : Int))
      | l2 =>
        let es := l2.takeWhile isDigitCh
        if es = [] then none else some (digitsToNat es : Int)

/-- `re.findall(...)[0]` on one demand line. -/
def parseDemandLine (line : List Char) : Except PyErr Int :=
  match searchFrom matchDemandAt line with
  | some d => .ok d
  | none => .error .indexError

/-- The demand lines loop (utils.py lines 172-174). -/
def parseDemandLines : List (List Char) → Except PyErr (List Int)
  | [] => .ok []
  | line :: ls =>
    match parseDemandLine line with
    | .error e => .error e
    | .ok d =>
      match parseDemandLines ls with
      | .error e => .error e
      | .ok rest => .ok (d :: rest)

/-- The depot-id pattern `(\d+)\s*[^-0-9]` anchored at one position: a digit
run, optional whitespace, then one character that is neither a digit nor
`-`.  When the character after the whitespace run is a digit, `-`, or the
end of input, the engine backtracks `\s*` by one so that `[^-0-9]` consumes
the last whitespace character (possible only when the run is nonempty).
Returns the id and the rest of the input after the whole match. -/
def matchDepotAt (l : List Char) : Option (Nat × List Char) :=
  let ds := l.takeWhile isDigitCh
  if ds = [] then none
  else
    let rest := l.dropWhile isDigitCh
    let w := rest.takeWhile isPyWs
    let rest2 := rest.dropWhile isPyWs
    match rest2 with
    | c :: cs =>
      if isDigitCh c || c = '-' then
        if w ≠ [] then some (digitsToNat ds, rest2) else none
      else some (digitsToNat ds, cs)
    | [] => if w ≠ [] then some (digitsToNat ds, rest2) else none

/-- `re.findall(r'(\d+)\s*[^-0-9]', s)`: scan left to right, resuming after
the end of each match.  Fuel bounds the scan by the input length; every
match consumes at least one character, so the fuel never runs out. -/
def findAllDepotGo : Nat → List Char → List Nat
  | 0, _ => []
  | _ + 1, [] => []
  | fuel + 1, c :: cs =>
    match matchDepotAt (c :: cs) with
    | some (n, rest) => n :: findAllDepotGo fuel rest
    | none => findAllDepotGo fuel cs

/-- The depot-section extraction loop (utils.py line 181). -/
def findAllDepot (l : List Char) : List Nat :=
  findAllDepotGo l.length l

/-- The parsed-instance record: the fields of the result dict that the
claims touch; `none` models an absent key. -/
structure VrpInstance where
  name : Option (List Char)
  dimension : Option Nat
  node_coords : Option (List (DecNum × DecNum))
  demand : Option (List Int)
  depot_ids : Option (List Nat)
deriving DecidableEq, Repr

/-- Continuation of `parse_vrplib_file`: the demand and depot sections
(utils.py lines 167-182). -/
def parseVrplibRest (content : List Char) (name : Option (List Char))
    (dim : Option Nat) (coords : Option (List (DecNum × DecNum))) :
    Except PyErr VrpInstance :=
  let depot :=
    (sectionBetween ("DEPOT_SECTION".toList) ("EOF".toList) content).map
      findAllDepot
  match sectionBetween ("DEMAND_SECTION".toList) ("DEPOT_SECTION".toList)
      content with
  | some seg =>
    match parseDemandLines (splitLines seg) with
    | .error e => .error e
    | .ok ds => .ok ⟨name, dim, coords, some ds, depot⟩
  | none => .ok ⟨name, dim, coords, none, depot⟩

/-- `parse_vrplib_file(source)` from utils.py lines 105-184, applied to the
already-loaded text: each field is an independent full-text regex search,
absent when its pattern does not match; the node-coordinate and demand
sections are split into lines and parsed per line (raising on a malformed
line), and the depot section is scanned with `findall`. -/
def parse_vrplib_file (content : List Char) : Except PyErr VrpInstance :=
  let name := searchFrom matchNameAt content
  let dim := searchFrom matchDimAt content
  match sectionBetween ("NODE_COORD_SECTION".toList) ("DEMAND_SECTION".toList)
      content with
  | some seg =>
    match parseCoordLines (splitLines seg) with
    | .error e => .error e
    | .ok coords => parseVrplibRest content name dim (some coords)
  | none => parseVrplibRest content name dim none


/-! ## Store-passing model of mutation (for the frame/effect claim)

Python lists are heap objects passed by reference.  To state which
functions mutate their arguments, the relevant functions are re-translated
statement by statement in store-passing style: a `Store` maps addresses of
the caller's list objects to their contents, list-valued arguments are
passed as addresses, and every translated statement threads the store,
updating it exactly where the Python statement mutates an
argument-reachable object.  Lists freshly allocated inside a call are pure
values (nothing the caller holds aliases them). -/

/-- The heap: contents of the caller's `list`-of-int objects by address. -/
def Store : Type := Nat → List Nat

/-- An element of a Python list argument in the store model: a reference to
a list object, or an int. -/
inductive PyRef where
  | ref (a : Nat)
  | intVal (n : Nat)
deriving DecidableEq, Repr

/-- Store-passing `routes_to_solution` loop (utils.py lines 17-24): reads
`σ a` for each route reference, never writes. -/
def r2sStGo : Store → Bool → List PyRef → Store × Except PyErr (List Nat)
  | σ, _, [] => (σ, .ok [])
  | σ, _, .intVal _ :: _ => (σ, .error .typeError)
  | σ, first, .ref a :: rs =>
    let route := σ a
    match route.head? with
    | none => (σ, .error .indexError)
    | some h =>
      if h = 0 then
        if route.getLast? = some 0 then
          match r2sStGo σ false rs with
          | (σ1, .ok s) =>
            (σ1, .ok ((if first then route else route.tail) ++ s))
          | (σ1, .error e) => (σ1, .error e)
        else (σ, .error .assertionError)
      else (σ, .error .assertionError)

/-- Store-passing `routes_to_solution(routes)`. -/
def routesToSolutionSt (σ : Store) (routes : List Nat) :
    Store × Except PyErr (List Nat) :=
  r2sStGo σ true (routes.map .ref)

/-- Store-passing `solution_to_routes` loop (utils.py lines 62-70): the
accumulating route and the emitted routes are fresh objects, hence pure
values; the loop never writes. -/
def s2rStGo : Store → List Nat → List Nat → Store × List (List Nat)
  | σ, _, [] => (σ, [])
  | σ, route, n :: rest =>
    if n = 0 ∧ route ≠ [] then
      match s2rStGo σ [0] rest with
      | (σ1, rs) => (σ1, (route ++ [0]) :: rs)
    else s2rStGo σ (route ++ [n]) rest

/-- Store-passing `solution_to_routes(solution)`: the argument is the
address of the flat solution list. -/
def solutionToRoutesSt (σ : Store) (a : Nat) : Store × List (List Nat) :=
  s2rStGo σ [] (σ a)

/-- Store-passing `get_cvrp_cost` (utils.py lines 223-253): dispatch on the
shape of the first element, flatten if nested, then the read-only cost
loop. -/
def getCvrpCostSt (σ : Store) (dist : (ℚ × ℚ) → (ℚ × ℚ) → ℚ)
    (arg : Option (List PyRef)) (coords : List (ℚ × ℚ)) :
    Store × Except PyErr ℚ :=
  match arg with
  | none => (σ, .error .valueError)
  | some [] => (σ, .error .indexError)
  | some (first :: rest) =>
    match first with
    | .ref _ =>
      match r2sStGo σ true (first :: rest) with
      | (σ1, .ok solution) => (σ1, costLoop dist coords solution)
      | (σ1, .error e) => (σ1, .error e)
    | .intVal _ =>
      match itemsToNodes ((first :: rest).map
          (fun | .ref a => PyItem.pyList (σ a) | .intVal n => PyItem.pyInt n)) with
      | .ok solution => (σ, costLoop dist coords solution)
      | .error e => (σ, .error e)

/-- Store-passing `is_feasible` (utils.py lines 276-301): flatten (reads),
set comparison (reads), per-route demand sums (reads). -/
def isFeasibleSt (σ : Store) (routes : List Nat) (dem : List (Nat × Int))
    (cap : Int) : Store × Except PyErr Bool :=
  match routesToSolutionSt σ routes with
  | (σ1, .error e) => (σ1, .error e)
  | (σ1, .ok solution) =>
    if pySetEq solution (dem.map Prod.fst) then
      (σ1, isFeasibleLoop dem cap (routes.map σ1))
    else (σ1, .ok false)

/-- Store-passing `add_depot_to_routes` loop (utils.py lines 43-48):
`route.insert(0, 0)` and `route.append(0)` update the store at the route's
address. -/
def addDepotStGo : Store → List PyRef → Store × Except PyErr Unit
  | σ, [] => (σ, .ok ())
  | σ, .intVal _ :: _ => (σ, .error .valueError)
  | σ, .ref a :: rs =>
    addDepotStGo (Function.update σ a (0 :: σ a ++ [0])) rs

/-- Store-passing `add_depot_to_routes(routes)`. -/
def addDepotSt (σ : Store) (routes : List PyRef) :
    Store × Except PyErr Unit :=
  addDepotStGo σ routes

/-! ## Helper definitions used in theorem statements -/

/-- The flat value `routes_to_solution` builds when all asserts pass: the
first route whole, every later route with its leading depot stripped. -/
def flatGo : Bool → List (List Nat) → List Nat
  | _, [] => []
  | b, r :: rs => (if b then r else r.tail) ++ flatGo false rs

/-- The last element of `xs` when there is one, else the default `c0`
(models a variable overwritten by each match, read at the end). -/
def lastOr (xs : List α) (c0 : Option α) : Option α :=
  match xs.getLast? with
  | some t => some t
  | none => c0

/-- Modelled from the spec: "Each line matching `Route #<n>: <ints>` yields
one route ... output order follows line order in the text", with the route
number `<n>` unused.  The per-line route this wording assigns to a line:
its parsed node list when the line matches the route pattern with integer
tokens, nothing otherwise. -/
def specRouteOfLine (l : List Char) : Option (List Int) :=
  match routeMatch l with
  | none => none
  | some (_, rest) => (pyMapInt (pySplit rest)).toOption

/-! # Theorems

First the shared helper lemmas, then one theorem per claim (with its
counterexample and witness where required). -/

theorem r2sGo_ok (R : List (List Nat))
    (h : ∀ r ∈ R, r.head? = some 0 ∧ r.getLast? = some 0) :
    ∀ b, r2sGo b R = .ok (flatGo b R) := by
  induction R with
  | nil => intro b; rfl
  | cons r rs ih =>
    intro b
    obtain ⟨h1, h2⟩ := h r (List.mem_cons_self r rs)
    have hrec := ih (fun x hx => h x (List.mem_cons_of_mem _ hx)) false
    simp [r2sGo, h1, h2, hrec, flatGo]

theorem validRoute_decomp (r : List Nat) (hv : validRoute r)
    (h2 : 2 ≤ r.length) : ∃ m, r = 0 :: m ++ [0] ∧ 0 ∉ m := by
  obtain ⟨hne, hhead, hlast, hmid⟩ := hv
  rcases r with _ | ⟨a, t⟩
  · cases hne rfl
  · have ha : a = 0 := by simpa using hhead
    subst ha
    rcases t.eq_nil_or_concat with ht | ⟨m, b, ht⟩
    · subst ht; simp at h2
    · subst ht
      have hb : ((0 :: m) ++ [b]).getLast? = some 0 := by simpa using hlast
      rw [List.getLast?_concat] at hb
      have hb0 : b = 0 := by simpa using hb
      subst hb0
      rw [List.concat_eq_append] at hmid
      refine ⟨m, by simp, ?_⟩
      have htl : (0 :: (m ++ [0])).tail.dropLast = m := by
        rw [List.tail_cons, List.dropLast_concat]
      rw [htl] at hmid
      exact hmid

theorem s2rGo_block (m : List Nat) : ∀ (route f : List Nat), 0 ∉ m →
    route ≠ [] →
    s2rGo route (m ++ 0 :: f) = (route ++ m ++ [0]) :: s2rGo [0] f := by
  induction m with
  | nil =>
    intro route f _ hr
    simp [s2rGo, hr]
  | cons a m2 ih =>
    intro route f hm hr
    have ha : a ≠ 0 := by rintro rfl; exact hm (List.mem_cons_self _ _)
    have hm2 : 0 ∉ m2 := fun h => hm (List.mem_cons_of_mem _ h)
    simp only [List.cons_append, s2rGo]
    rw [if_neg (by rintro ⟨h0, -⟩; exact ha h0)]
    simp only [List.append_eq]
    rw [ih (route ++ [a]) f hm2 (by simp)]
    simp

theorem s2rGo_flatGo_false (rs : List (List Nat))
    (h : ∀ r ∈ rs, ∃ m, r = 0 :: m ++ [0] ∧ 0 ∉ m) :
    s2rGo [0] (flatGo false rs) = rs := by
  induction rs with
  | nil => rfl
  | cons r rs2 ih =>
    obtain ⟨m, rfl, hm⟩ := h _ (List.mem_cons_self _ _)
    have hstep : flatGo false ((0 :: m ++ [0]) :: rs2) =
        m ++ 0 :: flatGo false rs2 := by simp [flatGo]
    rw [hstep, s2rGo_block m [0] _ hm (by simp),
      ih (fun x hx => h x (List.mem_cons_of_mem _ hx))]
    simp

/-- Claim C1 (counterexample): `[[0]]` is a valid route list in the claim's
sense (the single route is nonempty, begins and ends with the depot, and
has no internal depot), yet the round trip returns `[]`, not `[[0]]`. -/
theorem claim_C1_counterexample :
    validRoute [0] ∧ routes_to_solution [[0]] = .ok [0] ∧
      solution_to_routes [0] = [] ∧
      solution_to_routes [0] ≠ [[0]] := by
  refine ⟨by decide, by decide, by decide, by decide⟩

/-- Claim C1 (amended): for every valid route list in which each route
moreover has at least two elements (so that its first and last depots are
distinct positions), `routes_to_solution` succeeds and
`solution_to_routes` inverts it. -/
theorem claim_C1_theorem (R : List (List Nat))
    (h : ∀ r ∈ R, validRoute r ∧ 2 ≤ r.length) :
    ∃ s, routes_to_solution R = .ok s ∧ solution_to_routes s = R := by
  have hd : ∀ r ∈ R, ∃ m, r = 0 :: m ++ [0] ∧ 0 ∉ m := fun r hr =>
    validRoute_decomp r (h r hr).1 (h r hr).2
  have hok : routes_to_solution R = .ok (flatGo true R) :=
    r2sGo_ok R (fun r hr => ⟨(h r hr).1.2.1, (h r hr).1.2.2.1⟩) true
  refine ⟨flatGo true R, hok, ?_⟩
  rcases R with _ | ⟨r, rs⟩
  · rfl
  · obtain ⟨m, rfl, hm⟩ := hd _ (List.mem_cons_self _ _)
    have hflat : flatGo true ((0 :: m ++ [0]) :: rs) =
        0 :: (m ++ 0 :: flatGo false rs) := by simp [flatGo]
    show s2rGo [] _ = _
    rw [hflat]
    have step1 : s2rGo [] (0 :: (m ++ 0 :: flatGo false rs)) =
        s2rGo [0] (m ++ 0 :: flatGo false rs) := by simp [s2rGo]
    rw [step1, s2rGo_block m [0] _ hm (by simp),
      s2rGo_flatGo_false rs (fun x hx => hd x (List.mem_cons_of_mem _ hx))]
    simp

/-- Claim C1 (witness): the amended round trip at the concrete valid route
list `[[0,1,2,0],[0,3,0]]`. -/
theorem claim_C1_witness :
    (∀ r ∈ [[0,1,2,0],[0,3,0]], validRoute r ∧ 2 ≤ r.length) ∧
      ∃ s, routes_to_solution [[0,1,2,0],[0,3,0]] = .ok s ∧
        solution_to_routes s = [[0,1,2,0],[0,3,0]] :=
  ⟨by decide, claim_C1_theorem [[0,1,2,0],[0,3,0]] (by decide)⟩

theorem r2sGo_assertion (R : List (List Nat)) (hne : ∀ r ∈ R, r ≠ [])
    (hbad : ∃ r ∈ R, r.head? ≠ some 0 ∨ r.getLast? ≠ some 0) :
    ∀ b, r2sGo b R = .error .assertionError := by
  induction R with
  | nil => rcases hbad with ⟨r, hr, -⟩; cases hr
  | cons r rs ih =>
    intro b
    rcases List.exists_cons_of_ne_nil (hne r (List.mem_cons_self _ _)) with
      ⟨a, t, rfl⟩
    by_cases ha : a = 0
    · subst ha
      by_cases hl : (0 :: t).getLast? = some 0
      · have hbad2 : ∃ x ∈ rs, x.head? ≠ some 0 ∨ x.getLast? ≠ some 0 := by
          rcases hbad with ⟨x, hx, hb⟩
          rcases List.mem_cons.mp hx with rfl | hx2
          · rcases hb with hb | hb
            · simp at hb
            · exact absurd hl hb
          · exact ⟨x, hx2, hb⟩
        have hrec := ih (fun x hx => hne x (List.mem_cons_of_mem _ hx))
          hbad2 false
        simp [r2sGo, hl, hrec]
      · simp [r2sGo, hl]
    · simp [r2sGo, ha]

/-- Claim C5 (counterexample): on a route list containing an empty route,
`routes_to_solution` fails with `IndexError` (from `route[0]`), not with an
assertion-style error. -/
theorem claim_C5_counterexample :
    routes_to_solution [[]] = .error .indexError ∧
      PyErr.indexError ≠ PyErr.assertionError := by
  refine ⟨by decide, by decide⟩

/-- Claim C5 (amended): `routes_to_solution` requires every route's first
and last element to equal the depot index 0, and fails with an
assertion-style error on every route list whose routes are all nonempty in
which some route's first or last element is not 0; an empty route instead
raises `IndexError`, since `route[0]` fails before the assertion. -/
theorem claim_C5_theorem (R : List (List Nat)) (hne : ∀ r ∈ R, r ≠ [])
    (hbad : ∃ r ∈ R, r.head? ≠ some 0 ∨ r.getLast? ≠ some 0) :
    routes_to_solution R = .error .assertionError :=
  r2sGo_assertion R hne hbad true

/-- Claim C5 (witness): the amended statement at the concrete route list
`[[0,1,0],[1,2,0]]`, whose second route starts at 1. -/
theorem claim_C5_witness :
    (∀ r ∈ [[0,1,0],[1,2,0]], r ≠ ([] : List Nat)) ∧
      (∃ r ∈ [[0,1,0],[1,2,0]],
        r.head? ≠ some 0 ∨ r.getLast? ≠ some 0) ∧
      routes_to_solution [[0,1,0],[1,2,0]] = .error .assertionError :=
  ⟨by decide, ⟨[1,2,0], by decide⟩,
    claim_C5_theorem [[0,1,0],[1,2,0]] (by decide) ⟨[1,2,0], by decide⟩⟩

theorem s2rGo_no_zero (t : List Nat) : ∀ route, (∀ x ∈ t, x ≠ 0) →
    s2rGo route t = [] := by
  induction t with
  | nil => intro route _; rfl
  | cons n t2 ih =>
    intro route h
    have hn : n ≠ 0 := h n (List.mem_cons_self _ _)
    simp only [s2rGo]
    rw [if_neg (by rintro ⟨h0, -⟩; exact hn h0)]
    exact ih _ (fun x hx => h x (List.mem_cons_of_mem _ hx))

theorem s2rGo_append_no_zero (s : List Nat) : ∀ (route t : List Nat),
    (∀ x ∈ t, x ≠ 0) → s2rGo route (s ++ t) = s2rGo route s := by
  induction s with
  | nil =>
    intro route t h
    simp only [List.nil_append]
    rw [s2rGo_no_zero t route h]
    rfl
  | cons n s2 ih =>
    intro route t h
    simp only [List.cons_append, s2rGo, List.append_eq]
    by_cases hc : n = 0 ∧ route ≠ []
    · rw [if_pos hc, if_pos hc, ih [0] t h]
    · rw [if_neg hc, if_neg hc, ih (route ++ [n]) t h]

/-- Claim C10: `solution_to_routes` silently discards everything after the
last emitted route boundary.  First part: appending trailing elements that
contain no depot never changes the output (they can close no route, so
they appear in no emitted route; a depot in the trailing region would
itself close a route, so a discarded trailing depot can only be the very
first element, covered by the second part).  Second part: an input with no
depot occurrence closing a nonempty prefix — i.e. no depot past the first
element — yields `[]` with no error. -/
theorem claim_C10_theorem :
    (∀ s t : List Nat, (∀ x ∈ t, x ≠ 0) →
      solution_to_routes (s ++ t) = solution_to_routes s) ∧
    (∀ s : List Nat, 0 ∉ s.tail → solution_to_routes s = []) := by
  constructor
  · intro s t h
    exact s2rGo_append_no_zero s [] t h
  · intro s h
    rcases s with _ | ⟨a, s2⟩
    · rfl
    · have h2 : ∀ x ∈ s2, x ≠ 0 := by
        intro x hx
        rintro rfl
        exact h hx
      show s2rGo [] (a :: s2) = []
      simp only [s2rGo]
      by_cases hc : a = 0 ∧ ([] : List Nat) ≠ []
      · exact absurd hc.2 (by simp)
      · rw [if_neg hc]
        exact s2rGo_no_zero s2 _ h2

/-- Claim C10 (witness): trailing customers `[2,3]` after the final
route-closing depot of `[0,1,0]` are discarded, and the depot-free-tail
inputs `[1,2,3]` and `[0,1,2]` yield `[]`. -/
theorem claim_C10_witness :
    ((∀ x ∈ ([2,3] : List Nat), x ≠ 0) ∧
      solution_to_routes ([0,1,0] ++ [2,3]) = solution_to_routes [0,1,0]) ∧
    ((0 : Nat) ∉ ([1,2,3] : List Nat).tail ∧ solution_to_routes [1,2,3] = []) ∧
    ((0 : Nat) ∉ ([0,1,2] : List Nat).tail ∧ solution_to_routes [0,1,2] = []) :=
  ⟨⟨by decide, claim_C10_theorem.1 [0,1,0] [2,3] (by decide)⟩,
    ⟨by decide, claim_C10_theorem.2 [1,2,3] (by decide)⟩,
    ⟨by decide, claim_C10_theorem.2 [0,1,2] (by decide)⟩⟩

/-- Claim C2 (code evaluated at the failing input): node 3 appears in both
routes, every node of the demand table is covered, and both route demands
are within capacity — `is_feasible` returns `True`, although the source's
own comment says this check verifies that "each node appears only once"
and the claim (with the spec) says a duplicated node makes it `False`.
`set(solution)` cannot see the duplication. -/
theorem claim_C2_theorem :
    is_feasible [[0,1,3,0],[0,2,3,0]] [(0,0),(1,1),(2,1),(3,1)] 10 =
        .ok true ∧
      (3 ∈ ([0,1,3,0] : List Nat) ∧ 3 ∈ ([0,2,3,0] : List Nat)) := by
  refine ⟨by decide, by decide, by decide⟩

/-- Claim C3 (counterexample): on the empty outer list,
`isinstance(routes_or_solution[0], list)` raises `IndexError`, not the
`ValueError` the claim states (shown here for one concrete distance
function and coordinate table; the dispatch never consults them). -/
theorem claim_C3_counterexample :
    get_cvrp_cost (fun _ _ => 0) (.pyListArg []) [] = .error .indexError ∧
      PyErr.indexError ≠ PyErr.valueError := by
  refine ⟨rfl, by decide⟩

/-- Claim C3 (amended): `get_cvrp_cost` fails with `ValueError` when its
first argument is neither a nested list of routes nor a flat list of node
indices (a non-list value); on an empty outer list it fails with
`IndexError` (from indexing element 0 of the empty list), not `ValueError`. -/
theorem claim_C3_theorem :
    (∀ (dist : (ℚ × ℚ) → (ℚ × ℚ) → ℚ) (coords : List (ℚ × ℚ)),
      get_cvrp_cost dist .pyOther coords = .error .valueError) ∧
    (∀ (dist : (ℚ × ℚ) → (ℚ × ℚ) → ℚ) (coords : List (ℚ × ℚ)),
      get_cvrp_cost dist (.pyListArg []) coords = .error .indexError) :=
  ⟨fun _ _ => rfl, fun _ _ => rfl⟩

/-- Claim C4 (counterexample): on a non-list argument,
`add_depot_to_routes` raises `ValueError("Routes must be a list")`, not a
`TypeError`. -/
theorem claim_C4_counterexample :
    add_depot_to_routes .pyOther = .error .valueError ∧
      PyErr.valueError ≠ PyErr.typeError := by
  refine ⟨rfl, by decide⟩

theorem addDepotGo_int (items : List PyItem)
    (h : ∃ n, PyItem.pyInt n ∈ items) :
    addDepotGo items = .error .valueError := by
  induction items with
  | nil => rcases h with ⟨n, hn⟩; cases hn
  | cons it rest ih =>
    cases it with
    | pyInt n => rfl
    | pyList r =>
      have h2 : ∃ n, PyItem.pyInt n ∈ rest := by
        rcases h with ⟨n, hn⟩
        rcases List.mem_cons.mp hn with heq | hmem
        · cases heq
        · exact ⟨n, hmem⟩
      simp [addDepotGo, ih h2]

theorem addDepotGo_lists (rs : List (List Nat)) :
    addDepotGo (rs.map .pyList) = .ok (rs.map (fun r => 0 :: r ++ [0])) := by
  induction rs with
  | nil => rfl
  | cons r rest ih => simp [addDepotGo, ih]

/-- Claim C4 (amended): `add_depot_to_routes` fails with `ValueError` (not
`TypeError`) when its argument is not a list or when any element of the
argument is not a list; when all elements are lists, each route `r` becomes
`[0] ++ r ++ [0]` — first and last element the depot and interior equal to
the original route. -/
theorem claim_C4_theorem :
    (add_depot_to_routes .pyOther = .error .valueError) ∧
    (∀ items : List PyItem, (∃ n, PyItem.pyInt n ∈ items) →
      add_depot_to_routes (.pyListArg items) = .error .valueError) ∧
    (∀ rs : List (List Nat),
      add_depot_to_routes (.pyListArg (rs.map .pyList)) =
        .ok (rs.map (fun r => 0 :: r ++ [0])) ∧
      ∀ r : List Nat, (0 :: r ++ [0]).head? = some 0 ∧
        (0 :: r ++ [0]).getLast? = some 0 ∧
        (0 :: r ++ [0]).tail.dropLast = r) := by
  refine ⟨rfl, ?_, ?_⟩
  · intro items h
    exact addDepotGo_int items h
  · intro rs
    refine ⟨addDepotGo_lists rs, ?_⟩
    intro r
    refine ⟨rfl, ?_, ?_⟩
    · rw [List.getLast?_concat]
    · show (0 :: (r ++ [0])).tail.dropLast = r
      rw [List.tail_cons, List.dropLast_concat]

/-- Claim C4 (witness): the amended statement at a list containing the
non-list element `3`, and at the all-lists input `[[1,2],[3]]`. -/
theorem claim_C4_witness :
    ((∃ n, PyItem.pyInt n ∈ [PyItem.pyInt 3]) ∧
      add_depot_to_routes (.pyListArg [PyItem.pyInt 3]) =
        .error .valueError) ∧
    add_depot_to_routes (.pyListArg ([[1,2],[3]].map .pyList)) =
      .ok [[0,1,2,0],[0,3,0]] :=
  ⟨⟨⟨3, List.mem_singleton.mpr rfl⟩,
      claim_C4_theorem.2.1 [PyItem.pyInt 3] ⟨3, List.mem_singleton.mpr rfl⟩⟩,
    (claim_C4_theorem.2.2 [[1,2],[3]]).1⟩

/-- Claim C7: parsing the given instance text yields name `X-n5-k2`,
dimension 5, the three coordinate pairs in line order with the id column
discarded (here as exact decimal literals `mant / 10 ^ exp`), no demand and
no depot_ids fields, and no error. -/
theorem claim_C7_theorem :
    parse_vrplib_file
      ("NAME : X-n5-k2\nDIMENSION : 5\nNODE_COORD_SECTION\n1 0 0\n2 1 0\n3 1 1\nDEMAND_SECTION".toList) =
      .ok ⟨some ("X-n5-k2".toList), some 5,
        some [(⟨0,0⟩,⟨0,0⟩),(⟨1,0⟩,⟨0,0⟩),(⟨1,0⟩,⟨1,0⟩)], none, none⟩ := by
  decide

theorem lastOr_none (xs : List α) : lastOr xs none = xs.getLast? := by
  unfold lastOr
  cases h : xs.getLast? <;> rfl

theorem lastOr_cons (x : α) (xs : List α) (c0 : Option α) :
    lastOr (x :: xs) c0 = lastOr xs (some x) := by
  cases xs with
  | nil => rfl
  | cons y ys =>
    unfold lastOr
    rw [List.getLast?_cons_cons]
    cases h : (y :: ys).getLast? with
    | some t => rfl
    | none =>
      have : (y :: ys).getLast?.isSome := List.getLast?_isSome.mpr (by simp)
      rw [h] at this
      cases this

theorem parseSolLines_spec (ls : List (List Char)) :
    ∀ (acc : List (List Int)) (c0 : Option (List Char)) rs c,
    parseSolLines ls acc c0 = .ok (rs, c) →
    rs = acc ++ ls.filterMap specRouteOfLine ∧
    c = lastOr (ls.filterMap costMatch) c0 := by
  induction ls with
  | nil =>
    intro acc c0 rs c h
    simp only [parseSolLines, Except.ok.injEq, Prod.mk.injEq] at h
    obtain ⟨h1, h2⟩ := h
    subst h1; subst h2
    exact ⟨by simp, rfl⟩
  | cons l ls2 ih =>
    intro acc c0 rs c h
    simp only [parseSolLines] at h
    cases hr : routeMatch l with
    | some p =>
      obtain ⟨num, rest⟩ := p
      simp only [hr] at h
      cases hp : pyMapInt (pySplit rest) with
      | error e =>
        simp only [hp] at h
        cases h
      | ok nodes =>
        simp only [hp] at h
        have hspec : specRouteOfLine l = some nodes := by
          simp [specRouteOfLine, hr, hp, Except.toOption]
        cases hc : costMatch l with
        | some tok =>
          simp only [hc] at h
          by_cases hv : validFloatTok tok = true
          · rw [if_pos hv] at h
            obtain ⟨h1, h2⟩ := ih (acc ++ [nodes]) (some tok) rs c h
            refine ⟨?_, ?_⟩
            · rw [h1, List.filterMap_cons, hspec]
              simp
            · rw [h2, List.filterMap_cons, hc, lastOr_cons]
          · rw [if_neg hv] at h
            simp at h
        | none =>
          simp only [hc] at h
          obtain ⟨h1, h2⟩ := ih (acc ++ [nodes]) c0 rs c h
          refine ⟨?_, ?_⟩
          · rw [h1, List.filterMap_cons, hspec]
            simp
          · rw [h2, List.filterMap_cons, hc]
    | none =>
      simp only [hr] at h
      have hspec : specRouteOfLine l = none := by
        simp [specRouteOfLine, hr]
      cases hc : costMatch l with
      | some tok =>
        simp only [hc] at h
        by_cases hv : validFloatTok tok = true
        · rw [if_pos hv] at h
          obtain ⟨h1, h2⟩ := ih acc (some tok) rs c h
          refine ⟨?_, ?_⟩
          · rw [h1, List.filterMap_cons, hspec]
          · rw [h2, List.filterMap_cons, hc, lastOr_cons]
        · rw [if_neg hv] at h
          simp at h
      | none =>
        simp only [hc] at h
        obtain ⟨h1, h2⟩ := ih acc c0 rs c h
        refine ⟨?_, ?_⟩
        · rw [h1, List.filterMap_cons, hspec]
        · rw [h2, List.filterMap_cons, hc]

/-- Claim C6: whenever `parse_vrplib_solution` returns, the returned cost
is the token of the last line matching `Cost <number>` (`none` when no line
matches), and the returned routes are exactly the parses of the lines
matching `Route #<n>: <ints>`, in line order — the route number `<n>`
does not appear on the right-hand side, so it cannot affect the order. -/
theorem claim_C6_theorem (text : List Char) (rs : List (List Int))
    (c : Option (List Char))
    (h : parse_vrplib_solution text = .ok (rs, c)) :
    rs = (splitLines (pyStrip text)).filterMap specRouteOfLine ∧
    c = ((splitLines (pyStrip text)).filterMap costMatch).getLast? := by
  obtain ⟨h1, h2⟩ :=
    parseSolLines_spec (splitLines (pyStrip text)) [] none rs c h
  exact ⟨by simpa using h1, by rw [h2, lastOr_none]⟩

/-- Claim C6 (witness): the spec's scenario
`Route #1: 1 2\nRoute #2: 3\nCost 42.5` yields routes `[[1,2],[3]]` and
cost token `42.5`. -/
theorem claim_C6_witness :
    ([[1,2],[3]] : List (List Int)) =
      (splitLines (pyStrip
        ("Route #1: 1 2\nRoute #2: 3\nCost 42.5".toList))).filterMap
        specRouteOfLine ∧
    (some ("42.5".toList) : Option (List Char)) =
      ((splitLines (pyStrip
        ("Route #1: 1 2\nRoute #2: 3\nCost 42.5".toList))).filterMap
        costMatch).getLast? :=
  claim_C6_theorem _ [[1,2],[3]] (some ("42.5".toList)) (by decide)

theorem noAdjZeros_cons (a : Nat) (t : List Nat) :
    noAdjZeros (a :: t) =
      if a = 0 ∧ t.head? = some 0 then false else noAdjZeros t := by
  rcases t with _ | ⟨b, t2⟩
  · rcases a with _ | a2 <;> simp [noAdjZeros]
  · rcases a with _ | a2
    · rcases b with _ | b2 <;> simp [noAdjZeros]
    · simp [noAdjZeros]

theorem noAdjZeros_tail (a : Nat) (t : List Nat)
    (h : noAdjZeros (a :: t) = true) : noAdjZeros t = true := by
  rw [noAdjZeros_cons] at h
  by_cases hc : a = 0 ∧ t.head? = some 0
  · rw [if_pos hc] at h; cases h
  · rwa [if_neg hc] at h

theorem noAdjZeros_pyInsert : ∀ (l : List Nat) (i : Nat),
    noAdjZeros l = true → l.getD (i + 1) 0 ≠ 0 → l.getD i 0 ≠ 0 →
    noAdjZeros (pyInsert (i + 1) 0 l) = true := by
  intro l
  induction l with
  | nil =>
    intro i _ _ h2
    simp [List.getD] at h2
  | cons x xs ih =>
    intro i h h1 h2
    cases i with
    | zero =>
      have hx : x ≠ 0 := by simpa using h2
      have hxs : xs.getD 0 0 ≠ 0 := by simpa using h1
      rcases xs with _ | ⟨y, ys⟩
      · simp [List.getD] at hxs
      · have hy : y ≠ 0 := by simpa using hxs
        show noAdjZeros (x :: 0 :: y :: ys) = true
        rw [noAdjZeros_cons, if_neg (by rintro ⟨h0, -⟩; exact hx h0),
          noAdjZeros_cons,
          if_neg (by rintro ⟨-, hh⟩; exact hy (by simpa using hh))]
        exact noAdjZeros_tail _ _ h
    | succ j =>
      have hx1 : xs.getD (j + 1) 0 ≠ 0 := by simpa using h1
      have hx2 : xs.getD j 0 ≠ 0 := by simpa using h2
      have hrec := ih j (noAdjZeros_tail _ _ h) hx1 hx2
      show noAdjZeros (x :: pyInsert (j + 1) 0 xs) = true
      rcases xs with _ | ⟨y, ys⟩
      · simp [List.getD] at hx2
      · by_cases hx : x = 0
        · subst hx
          have hy : y ≠ 0 := by
            intro hy0; subst hy0
            rw [noAdjZeros_cons, if_pos ⟨rfl, rfl⟩] at h
            cases h
          rw [noAdjZeros_cons, if_neg ?hcond]
          · exact hrec
          case hcond =>
            rintro ⟨-, hh⟩
            rw [show pyInsert (j + 1) 0 (y :: ys) = y :: pyInsert j 0 ys
              from rfl] at hh
            exact hy (by simpa using hh)
        · rw [noAdjZeros_cons, if_neg (by rintro ⟨h0, -⟩; exact hx h0)]
          exact hrec

theorem pickIndex_spec : ∀ (vs l : List Nat) (idx : Nat)
    (rest : List Nat), pickIndex l vs = some (idx, rest) →
    ∃ j, idx = j + 1 ∧ l.getD (j + 1) 0 ≠ 0 ∧ l.getD j 0 ≠ 0 := by
  intro vs
  induction vs with
  | nil => intro l idx rest h; cases h
  | cons v vs2 ih =>
    intro l idx rest h
    simp only [pickIndex] at h
    by_cases hc : (l.getD (1 + v % (l.length - 1)) 0 == 0 ||
        l.getD (1 + v % (l.length - 1) - 1) 0 == 0) = true
    · rw [if_pos hc] at h
      exact ih l idx rest h
    · rw [if_neg hc] at h
      simp only [Option.some.injEq, Prod.mk.injEq] at h
      obtain ⟨hidx, -⟩ := h
      simp only [Bool.or_eq_true, beq_iff_eq, not_or] at hc
      obtain ⟨hc1, hc2⟩ := hc
      refine ⟨v % (l.length - 1), ?_, ?_, ?_⟩
      · omega
      · rwa [Nat.add_comm 1 (v % (l.length - 1))] at hc1
      · rwa [show 1 + v % (l.length - 1) - 1 = v % (l.length - 1) by omega]
          at hc2

theorem insertZerosLoop_naz (k : Nat) : ∀ (vs l out : List Nat),
    noAdjZeros l = true → insertZerosLoop k vs l = some out →
    noAdjZeros out = true := by
  induction k with
  | zero =>
    intro vs l out h hl
    cases hl
    exact h
  | succ k2 ih =>
    intro vs l out h hl
    simp only [insertZerosLoop] at hl
    cases hp : pickIndex l vs with
    | none =>
      simp only [hp] at hl
      cases hl
    | some p =>
      obtain ⟨idx, rest⟩ := p
      simp only [hp] at hl
      obtain ⟨j, rfl, hj1, hj2⟩ := pickIndex_spec vs l idx rest hp
      exact ih rest (pyInsert (j + 1) 0 l) out
        (noAdjZeros_pyInsert l j h hj1 hj2) hl

theorem pickIndex_pair_none : ∀ vs : List Nat, pickIndex [0, 0] vs = none := by
  intro vs
  induction vs with
  | nil => rfl
  | cons v vs2 ih =>
    simp only [pickIndex]
    rw [if_pos ?_]
    · exact ih
    · simp [Nat.mod_one, List.getD]

theorem noAdjZeros_middle (m : List Nat) (h : ∀ x ∈ m, x ≠ 0) :
    noAdjZeros (m ++ [0]) = true := by
  induction m with
  | nil => decide
  | cons a m2 ih =>
    have ha : a ≠ 0 := h a (List.mem_cons_self _ _)
    rw [List.cons_append, noAdjZeros_cons,
      if_neg (by rintro ⟨h0, -⟩; exact ha h0)]
    exact ih (fun x hx => h x (List.mem_cons_of_mem _ hx))

theorem noAdjZeros_initial (m : List Nat) (hm : ∀ x ∈ m, x ≠ 0)
    (hne : m ≠ []) : noAdjZeros (0 :: (m ++ [0])) = true := by
  rcases m with _ | ⟨a, m2⟩
  · cases hne rfl
  · have ha : a ≠ 0 := hm a (List.mem_cons_self _ _)
    rw [noAdjZeros_cons, if_neg ?_]
    · exact noAdjZeros_middle _ hm
    · rintro ⟨-, hh⟩
      rw [List.cons_append] at hh
      exact ha (by simpa using hh)

/-- Claim C8: whenever `get_random_solution(N)` returns (for any sequence of
random draws), the result has no two adjacent depot occurrences — hence no
empty route: every maximal run between consecutive zeros contains at least
one customer.  (For `N = 0` the function never returns: the initial list is
`[0,0]` and every insertion position is rejected.) -/
theorem claim_C8_theorem (N : Nat) (oracle : List Nat) (l : List Nat)
    (h : get_random_solution N oracle = some l) : noAdjZeros l = true := by
  rcases oracle with _ | ⟨v, vs⟩
  · cases h
  · simp only [get_random_solution] at h
    rcases N with _ | M
    · exfalso
      rw [Nat.add_comm 1 (v % 5),
        show List.range (0 + 1) ++ [0] = [0, 0] by decide] at h
      simp only [insertZerosLoop, pickIndex_pair_none] at h
      cases h
    · have hinit : noAdjZeros (List.range (M + 1 + 1) ++ [0]) = true := by
        rw [List.range_succ_eq_map, List.cons_append]
        apply noAdjZeros_initial
        · intro x hx
          simp only [List.mem_map] at hx
          obtain ⟨y, -, rfl⟩ := hx
          exact Nat.succ_ne_zero y
        · simp
      exact insertZerosLoop_naz (1 + v % 5) vs _ l hinit h

/-- Claim C8 (witness): a concrete terminating run, `N = 2` with draws
`[0, 1]`, returning `[0,1,0,2,0]`, which has no adjacent depots. -/
theorem claim_C8_witness :
    get_random_solution 2 [0, 1] = some [0,1,0,2,0] ∧
      noAdjZeros [0,1,0,2,0] = true :=
  ⟨by decide, claim_C8_theorem 2 [0,1] [0,1,0,2,0] (by decide)⟩

theorem r2sStGo_store : ∀ (items : List PyRef) (σ : Store) (b : Bool),
    (r2sStGo σ b items).1 = σ := by
  intro items
  induction items with
  | nil => intro σ b; rfl
  | cons it rs ih =>
    intro σ b
    cases it with
    | intVal n => rfl
    | ref a =>
      rcases hr : r2sStGo σ false rs with ⟨σ1, res⟩
      have h1 : σ1 = σ := by
        have := ih σ false
        rw [hr] at this
        exact this
      cases res <;> simp only [r2sStGo, hr] <;> repeat' split
      all_goals first | rfl | simpa using h1

theorem routesToSolutionSt_store (σ : Store) (routes : List Nat) :
    (routesToSolutionSt σ routes).1 = σ :=
  r2sStGo_store (routes.map .ref) σ true

theorem s2rStGo_store : ∀ (s : List Nat) (σ : Store) (route : List Nat),
    (s2rStGo σ route s).1 = σ := by
  intro s
  induction s with
  | nil => intro σ route; rfl
  | cons n rest ih =>
    intro σ route
    rcases hr : s2rStGo σ [0] rest with ⟨σ1, rs⟩
    have h1 : σ1 = σ := by
      have := ih σ [0]
      rw [hr] at this
      exact this
    simp only [s2rStGo, hr]
    split
    · simpa using h1
    · exact ih σ _

theorem solutionToRoutesSt_store (σ : Store) (a : Nat) :
    (solutionToRoutesSt σ a).1 = σ :=
  s2rStGo_store (σ a) σ []

theorem getCvrpCostSt_store (σ : Store) (dist : (ℚ × ℚ) → (ℚ × ℚ) → ℚ)
    (arg : Option (List PyRef)) (coords : List (ℚ × ℚ)) :
    (getCvrpCostSt σ dist arg coords).1 = σ := by
  rcases arg with _ | ⟨_ | ⟨it, rest⟩⟩
  · rfl
  · rfl
  · cases it with
    | ref a =>
      rcases hr : r2sStGo σ true (PyRef.ref a :: rest) with ⟨σ1, res⟩
      have h1 : σ1 = σ := by
        have := r2sStGo_store (PyRef.ref a :: rest) σ true
        rw [hr] at this
        exact this
      cases res <;> simp only [getCvrpCostSt, hr] <;> simpa using h1
    | intVal n =>
      simp only [getCvrpCostSt]
      split <;> rfl

theorem isFeasibleSt_store (σ : Store) (routes : List Nat)
    (dem : List (Nat × Int)) (cap : Int) :
    (isFeasibleSt σ routes dem cap).1 = σ := by
  rcases hr : routesToSolutionSt σ routes with ⟨σ1, res⟩
  have h1 : σ1 = σ := by
    have := routesToSolutionSt_store σ routes
    rw [hr] at this
    exact this
  cases res <;> simp only [isFeasibleSt, hr] <;> repeat' split
  all_goals simpa using h1

/-- Claim C9: in the store-passing translation, `routes_to_solution`,
`solution_to_routes`, `get_cvrp_cost` and `is_feasible` leave the caller's
store — their argument lists, coordinate table and demand table — exactly
unchanged on every input, while `add_depot_to_routes` does mutate its
input on some input. -/
theorem claim_C9_theorem :
    (∀ (σ : Store) (routes : List Nat),
      (routesToSolutionSt σ routes).1 = σ) ∧
    (∀ (σ : Store) (a : Nat), (solutionToRoutesSt σ a).1 = σ) ∧
    (∀ (σ : Store) (dist : (ℚ × ℚ) → (ℚ × ℚ) → ℚ)
      (arg : Option (List PyRef)) (coords : List (ℚ × ℚ)),
      (getCvrpCostSt σ dist arg coords).1 = σ) ∧
    (∀ (σ : Store) (routes : List Nat) (dem : List (Nat × Int)) (cap : Int),
      (isFeasibleSt σ routes dem cap).1 = σ) ∧
    (∃ (σ : Store) (routes : List PyRef), (addDepotSt σ routes).1 ≠ σ) := by
  refine ⟨routesToSolutionSt_store, solutionToRoutesSt_store,
    getCvrpCostSt_store, isFeasibleSt_store, fun _ => [], [.ref 0], ?_⟩
  intro hcontra
  have h0 := congrFun hcontra 0
  simp [addDepotSt, addDepotStGo, Function.update] at h0
